import Mathlib

/-!
Shallow embedding of `src/Pods/Realm/Realm/ObjectStore/src/sync/sync_user.cpp`
(class `realm::SyncUser`).

Modelling decisions:
* A `SyncSession` is identified by a `SessionId := Nat`.  The two
  `std::map<std::string, std::weak_ptr<SyncSession>>` members are modelled as
  association lists `List (String × SessionId)` with unique keys.
* Whether a weak reference resolves at the moment of a call is an external
  fact, passed as a parameter `live : SessionId → Bool` (`wp.lock()` succeeds
  iff `live sid = true`); likewise `inError : SessionId → Bool` models
  `SyncSession::is_in_error_state()`.
* Operations that call out to sessions return, next to the updated user, the
  list of sessions acted on: `log_out` returns the sessions that received a
  `log_out()` notification, `update_refresh_token` the sessions handed to
  `SyncSession::revive_if_needed`, in the C++ iteration order.
* For the lock discipline, each operation additionally has a trace semantics
  emitting `Event`s (lock acquire/release, session calls, metadata updates)
  in the order the C++ performs them.
-/

/-- `SyncUser::State` from sync_user.hpp (values used in sync_user.cpp). -/
inductive UserState where
  | Active
  | LoggedOut
  | Error
deriving DecidableEq, Repr

abbrev SessionId := Nat

/-- A `std::map<std::string, std::weak_ptr<SyncSession>>` as an association
list from realm URL to session id. -/
abbrev SessionMap := List (String × SessionId)

/-- `map.find(url)`: the value stored under `url`, if any. -/
def lookupKey (url : String) : SessionMap → Option SessionId
  | [] => none
  | (k, v) :: rest => if k = url then some v else lookupKey url rest

/-- `map.erase(it)` for the iterator found by `map.find(url)`: removes the
entry with key `url` (the first one; keys are unique in a `std::map`). -/
def eraseKey (url : String) : SessionMap → SessionMap
  | [] => []
  | (k, v) :: rest => if k = url then rest else (k, v) :: eraseKey url rest

/-- `map[url] = sid`: insert-or-assign, keeping the key unique. -/
def setKey (url : String) (sid : SessionId) : SessionMap → SessionMap
  | [] => [(url, sid)]
  | (k, v) :: rest => if k = url then (url, sid) :: rest else (k, v) :: setKey url sid rest

/-- The state of one `realm::SyncUser` object: its scalar members and the two
session maps (`m_sessions` is the active map, `m_waiting_sessions` the
waiting map). -/
structure SyncUser where
  state : UserState
  server_url : String
  is_admin : Bool
  refresh_token : String
  identity : String
  sessions : SessionMap
  waiting_sessions : SessionMap
deriving DecidableEq, Repr

/-- `SyncUser::all_sessions()` loop body: walk the active map once; keep an
entry (and emit its session) iff its weak reference resolves and the session
is not in a fatal error state; erase it otherwise.  Returns the pruned map and
the collected sessions in iteration order. -/
def pruneSessions (live inError : SessionId → Bool) :
    SessionMap → SessionMap × List SessionId
  | [] => ([], [])
  | (url, sid) :: rest =>
    let (m, acc) := pruneSessions live inError rest
    if live sid && !inError sid then ((url, sid) :: m, sid :: acc) else (m, acc)

/-- `SyncUser::all_sessions()`: in the Error state return an empty vector
without touching the map; otherwise prune-while-enumerating the active map. -/
def all_sessions (live inError : SessionId → Bool) (u : SyncUser) :
    SyncUser × List SessionId :=
  if u.state = UserState.Error then (u, [])
  else
    let (m, res) := pruneSessions live inError u.sessions
    ({ u with sessions := m }, res)

/-- `SyncUser::session_for_url(url)`: `none` immediately in the Error state;
otherwise look the URL up in the active map, pruning an unresolvable entry. -/
def session_for_url (live : SessionId → Bool) (url : String) (u : SyncUser) :
    SyncUser × Option SessionId :=
  if u.state = UserState.Error then (u, none)
  else
    match lookupKey url u.sessions with
    | none => (u, none)
    | some sid =>
      if live sid then (u, some sid)
      else ({ u with sessions := eraseKey url u.sessions }, none)

/-- `SyncUser::update_refresh_token(token)`.  Second component: the sessions
passed to `SyncSession::revive_if_needed` after the lock is released. -/
def update_refresh_token (live : SessionId → Bool) (token : String) (u : SyncUser) :
    SyncUser × List SessionId :=
  match u.state with
  | UserState.Error => (u, [])
  | UserState.Active => ({ u with refresh_token := token }, [])
  | UserState.LoggedOut =>
    let liveWaiting := u.waiting_sessions.filter (fun p => live p.2)
    ({ u with
        refresh_token := token,
        state := UserState.Active,
        sessions := liveWaiting.foldl (fun m p => setKey p.1 p.2 m) u.sessions,
        waiting_sessions := [] },
      liveWaiting.map (fun p => p.2))

/-- `SyncUser::log_out()`.  Second component: the sessions that received a
`SyncSession::log_out()` notification, in iteration order. -/
def log_out (live : SessionId → Bool) (u : SyncUser) : SyncUser × List SessionId :=
  if u.is_admin then (u, [])
  else if u.state = UserState.LoggedOut then (u, [])
  else
    let liveActive := u.sessions.filter (fun p => live p.2)
    ({ u with
        state := UserState.LoggedOut,
        sessions := [],
        waiting_sessions := liveActive.foldl (fun m p => setKey p.1 p.2 m) u.waiting_sessions },
      liveActive.map (fun p => p.2))

/-- `SyncUser::invalidate()`: set the state to Error; nothing else. -/
def invalidate (u : SyncUser) : SyncUser :=
  { u with state := UserState.Error }

/-- The `has_session` lambda of `SyncUser::register_session`:
`it != sessions.end() && !it->second.expired()`. -/
def hasLiveSession (live : SessionId → Bool) (url : String) (m : SessionMap) : Bool :=
  match lookupKey url m with
  | some sid => live sid
  | none => false

/-- What `SyncUser::register_session` does with the session besides map
insertion. -/
inductive RegisterEffect where
  /-- `session->bind_with_admin_token(m_refresh_token, url)`, run under the lock. -/
  | bindAdmin (token url : String)
  /-- `SyncSession::revive_if_needed(session)`, run after `lock.unlock()`. -/
  | revive
  /-- LoggedOut: stored in the waiting map, no call made. -/
  | deferred
  /-- Error: accepted into neither map, silently dropped. -/
  | dropped
deriving DecidableEq, Repr

/-- `SyncUser::register_session(session)`; `url` is
`session->config().realm_url`, `sid` the session itself.  A thrown
`std::invalid_argument` is `Except.error ()`; the user state is returned in
both cases (unchanged on the throw). -/
def register_session (live : SessionId → Bool) (sid : SessionId) (url : String)
    (u : SyncUser) : SyncUser × Except Unit RegisterEffect :=
  if hasLiveSession live url u.sessions || hasLiveSession live url u.waiting_sessions then
    (u, Except.error ())
  else
    match u.state with
    | UserState.Active =>
      if u.is_admin then
        ({ u with sessions := setKey url sid u.sessions },
          Except.ok (RegisterEffect.bindAdmin u.refresh_token url))
      else
        ({ u with sessions := setKey url sid u.sessions }, Except.ok RegisterEffect.revive)
    | UserState.LoggedOut =>
      ({ u with waiting_sessions := setKey url sid u.waiting_sessions },
        Except.ok RegisterEffect.deferred)
    | UserState.Error => (u, Except.ok RegisterEffect.dropped)

/-! ### Event-trace semantics for the lock discipline -/

/-- Observable events of one operation, in program order. -/
inductive Event where
  /-- `m_mutex` acquired. -/
  | acquire
  /-- `m_mutex` released. -/
  | release
  /-- `ptr->log_out()` on a session. -/
  | sessionLogOut (sid : SessionId)
  /-- `SyncSession::revive_if_needed(session)`. -/
  | sessionRevive (sid : SessionId)
  /-- `session->bind_with_admin_token(token, url)`. -/
  | bindAdmin (sid : SessionId)
  /-- `SyncManager::shared().perform_metadata_update(...)`. -/
  | metadataUpdate
deriving DecidableEq, Repr

/-- Event trace of `SyncUser::log_out()`: the `lock_guard` covers the whole
body, so the per-session `ptr->log_out()` calls and the metadata update happen
between acquire and release. -/
def log_out_trace (live : SessionId → Bool) (u : SyncUser) : List Event :=
  if u.is_admin then []
  else if u.state = UserState.LoggedOut then [Event.acquire, Event.release]
  else
    [Event.acquire]
      ++ (u.sessions.filter (fun p => live p.2)).map (fun p => Event.sessionLogOut p.2)
      ++ [Event.metadataUpdate, Event.release]

/-- Event trace of `SyncUser::update_refresh_token(token)`: the metadata
update runs inside the `unique_lock` block; the `revive_if_needed` calls run
after it is released. -/
def update_refresh_token_trace (live : SessionId → Bool) (u : SyncUser) : List Event :=
  match u.state with
  | UserState.Error => [Event.acquire, Event.release]
  | UserState.Active =>
    [Event.acquire]
      ++ (if u.is_admin then [] else [Event.metadataUpdate])
      ++ [Event.release]
  | UserState.LoggedOut =>
    [Event.acquire]
      ++ (if u.is_admin then [] else [Event.metadataUpdate])
      ++ [Event.release]
      ++ (u.waiting_sessions.filter (fun p => live p.2)).map
          (fun p => Event.sessionRevive p.2)

/-- Event trace of `SyncUser::register_session(session)`: the admin bind runs
under the lock; the non-admin revive runs after `lock.unlock()`; the throw
unwinds the `unique_lock` (release). -/
def register_session_trace (live : SessionId → Bool) (sid : SessionId) (url : String)
    (u : SyncUser) : List Event :=
  if hasLiveSession live url u.sessions || hasLiveSession live url u.waiting_sessions then
    [Event.acquire, Event.release]
  else
    match u.state with
    | UserState.Active =>
      if u.is_admin then [Event.acquire, Event.bindAdmin sid, Event.release]
      else [Event.acquire, Event.release, Event.sessionRevive sid]
    | UserState.LoggedOut => [Event.acquire, Event.release]
    | UserState.Error => [Event.acquire, Event.release]

/-- Is `e` a call out to a session's log-out, revival, or admin-bind
capability? -/
def isSessionCall : Event → Bool
  | Event.sessionLogOut _ => true
  | Event.sessionRevive _ => true
  | Event.bindAdmin _ => true
  | _ => false

/-- Is `e` a call out to a session's revival capability? -/
def isReviveCall : Event → Bool
  | Event.sessionRevive _ => true
  | _ => false

/-- `callsAfter p tr released`: every event of `tr` satisfying `p` occurs
after some `release` event (`released` records whether one was already
seen). -/
def callsAfter (p : Event → Bool) : List Event → Bool → Bool
  | [], _ => true
  | Event.release :: rest, _ => callsAfter p rest true
  | e :: rest, released =>
    (!p e || released) && callsAfter p rest released

/-- All session calls in `tr` happen after the lock is released. -/
def sessionCallsAfterRelease (tr : List Event) : Bool :=
  callsAfter isSessionCall tr false

/-- All revival calls in `tr` happen after the lock is released. -/
def reviveCallsAfterRelease (tr : List Event) : Bool :=
  callsAfter isReviveCall tr false

/-- `callsBefore p tr released`: every event of `tr` satisfying `p` occurs
before any `release` event, i.e. while the lock is still held. -/
def callsBefore (p : Event → Bool) : List Event → Bool → Bool
  | [], _ => true
  | Event.release :: rest, _ => callsBefore p rest true
  | e :: rest, released =>
    (!p e || !released) && callsBefore p rest released

/-! ### Association-map lemmas -/

theorem lookupKey_setKey_self (url : String) (sid : SessionId) (m : SessionMap) :
    lookupKey url (setKey url sid m) = some sid := by
  induction m with
  | nil => simp [setKey, lookupKey]
  | cons p rest ih =>
    obtain ⟨k, v⟩ := p
    by_cases h : k = url
    · simp [setKey, h, lookupKey]
    · simp [setKey, h, lookupKey, ih]

theorem lookupKey_setKey_ne (url url' : String) (sid : SessionId) (m : SessionMap)
    (h : url' ≠ url) : lookupKey url' (setKey url sid m) = lookupKey url' m := by
  have hne : ¬url = url' := fun hc => h hc.symm
  induction m with
  | nil => simp [setKey, lookupKey, hne]
  | cons p rest ih =>
    obtain ⟨k, v⟩ := p
    by_cases hk : k = url
    · subst hk
      simp [setKey, lookupKey, hne]
    · simp only [setKey, hk, if_false, lookupKey]
      by_cases hk' : k = url'
      · simp [hk']
      · simp [hk', ih]

theorem lookupKey_foldl_setKey_notmem (pairs : SessionMap) (init : SessionMap)
    (url : String) (h : url ∉ pairs.map Prod.fst) :
    lookupKey url (pairs.foldl (fun m p => setKey p.1 p.2 m) init) = lookupKey url init := by
  induction pairs generalizing init with
  | nil => rfl
  | cons q rest ih =>
    simp only [List.map_cons, List.mem_cons, not_or] at h
    rw [List.foldl_cons, ih _ h.2, lookupKey_setKey_ne _ _ _ _ h.1]

theorem lookupKey_foldl_setKey_mem (pairs : SessionMap) (init : SessionMap)
    (hk : (pairs.map Prod.fst).Nodup) :
    ∀ p ∈ pairs, lookupKey p.1 (pairs.foldl (fun m q => setKey q.1 q.2 m) init) = some p.2 := by
  induction pairs generalizing init with
  | nil => intro p hp; cases hp
  | cons q rest ih =>
    simp only [List.map_cons, List.nodup_cons] at hk
    intro p hp
    rcases List.mem_cons.mp hp with h | h
    · subst h
      rw [List.foldl_cons,
        lookupKey_foldl_setKey_notmem rest _ p.1 hk.1,
        lookupKey_setKey_self]
    · exact ih _ hk.2 p h

theorem key_eq_of_nodup_keys {m : SessionMap} (h : (m.map Prod.fst).Nodup)
    {p q : String × SessionId} (hp : p ∈ m) (hq : q ∈ m) (hk : p.1 = q.1) : p = q :=
  List.inj_on_of_nodup_map h hp hq hk

theorem lookupKey_mem {url : String} {sid : SessionId} {m : SessionMap}
    (h : lookupKey url m = some sid) : (url, sid) ∈ m := by
  induction m with
  | nil => simp [lookupKey] at h
  | cons p rest ih =>
    obtain ⟨k, v⟩ := p
    by_cases hk : k = url
    · subst hk
      have hv : v = sid := by simpa [lookupKey] using h
      subst hv
      exact List.mem_cons_self _ _
    · simp only [lookupKey, if_neg hk] at h
      exact List.mem_cons_of_mem _ (ih h)

/-- The `all_sessions` loop keeps exactly the entries whose reference resolves
and whose session is not in a fatal error state, in order, and collects
exactly their sessions. -/
theorem pruneSessions_eq_filter (live inError : SessionId → Bool) (m : SessionMap) :
    pruneSessions live inError m =
      (m.filter (fun p => live p.2 && !inError p.2),
        (m.filter (fun p => live p.2 && !inError p.2)).map (fun p => p.2)) := by
  induction m with
  | nil => rfl
  | cons p rest ih =>
    obtain ⟨url, sid⟩ := p
    by_cases h : (live sid && !inError sid) = true
    · simp [pruneSessions, ih, List.filter_cons, h]
    · simp [pruneSessions, ih, List.filter_cons, h]

theorem callsAfter_of_released (p : Event → Bool) (l : List Event) :
    callsAfter p l true = true := by
  induction l with
  | nil => rfl
  | cons e rest ih => cases e <;> simp [callsAfter, ih]

theorem callsAfter_of_not (p : Event → Bool) (l : List Event)
    (h : ∀ e ∈ l, p e = false) : ∀ released, callsAfter p l released = true := by
  induction l with
  | nil => intro released; rfl
  | cons e rest ih =>
    intro released
    have hrest : ∀ x ∈ rest, p x = false := fun x hx => h x (List.mem_cons_of_mem _ hx)
    cases e
    case release => exact ih hrest true
    all_goals simp [callsAfter, h _ (List.mem_cons_self _ _), ih hrest released]

theorem callsAfter_append_of_not (p : Event → Bool) (l1 l2 : List Event)
    (hr : Event.release ∉ l1) (h : ∀ e ∈ l1, p e = false) :
    callsAfter p (l1 ++ l2) false = callsAfter p l2 false := by
  induction l1 with
  | nil => rfl
  | cons e rest ih =>
    have hrrest : Event.release ∉ rest := fun hx => hr (List.mem_cons_of_mem _ hx)
    have hrest : ∀ x ∈ rest, p x = false := fun x hx => h x (List.mem_cons_of_mem _ hx)
    cases e
    case release => exact absurd (List.mem_cons_self _ _) hr
    all_goals simp [callsAfter, h _ (List.mem_cons_self _ _), ih hrrest hrest]

theorem callsBefore_of_not (p : Event → Bool) (l : List Event)
    (h : ∀ e ∈ l, p e = false) : ∀ released, callsBefore p l released = true := by
  induction l with
  | nil => intro released; rfl
  | cons e rest ih =>
    intro released
    have hrest : ∀ x ∈ rest, p x = false := fun x hx => h x (List.mem_cons_of_mem _ hx)
    cases e
    case release => exact ih hrest true
    all_goals simp [callsBefore, h _ (List.mem_cons_self _ _), ih hrest released]

theorem callsBefore_append_no_release (p : Event → Bool) (l1 l2 : List Event)
    (hr : Event.release ∉ l1) :
    callsBefore p (l1 ++ l2) false = callsBefore p l2 false := by
  induction l1 with
  | nil => rfl
  | cons e rest ih =>
    have hrrest : Event.release ∉ rest := fun hx => hr (List.mem_cons_of_mem _ hx)
    cases e
    case release => exact absurd (List.mem_cons_self _ _) hr
    all_goals simp [callsBefore, ih hrrest]

/-! ### Claim theorems -/

/-- C7: `invalidate()` changes only the state field (to Error); both session
maps, the refresh token, the identity, the server URL (and the admin flag)
are left unchanged, from every prior state. -/
theorem invalidate_frame (u : SyncUser) :
    (invalidate u).state = UserState.Error ∧
    (invalidate u).sessions = u.sessions ∧
    (invalidate u).waiting_sessions = u.waiting_sessions ∧
    (invalidate u).refresh_token = u.refresh_token ∧
    (invalidate u).identity = u.identity ∧
    (invalidate u).server_url = u.server_url ∧
    (invalidate u).is_admin = u.is_admin :=
  ⟨rfl, rfl, rfl, rfl, rfl, rfl, rfl⟩

/-- C5: `session_for_url(url)` returns none immediately, with the user
untouched, in the Error state; otherwise none when the URL key is absent,
removes the entry and returns none when the entry is unresolvable, and
returns the resolved handle when it resolves. -/
theorem session_for_url_spec (live : SessionId → Bool) (url : String) (u : SyncUser) :
    (u.state = UserState.Error → session_for_url live url u = (u, none)) ∧
    (u.state ≠ UserState.Error → lookupKey url u.sessions = none →
      session_for_url live url u = (u, none)) ∧
    (∀ sid, u.state ≠ UserState.Error → lookupKey url u.sessions = some sid →
      live sid = false →
      session_for_url live url u = ({ u with sessions := eraseKey url u.sessions }, none)) ∧
    (∀ sid, u.state ≠ UserState.Error → lookupKey url u.sessions = some sid →
      live sid = true → session_for_url live url u = (u, some sid)) := by
  refine ⟨fun h => by simp [session_for_url, h],
    fun h hl => by simp [session_for_url, h, hl],
    fun sid h hl hlive => by simp [session_for_url, h, hl, hlive],
    fun sid h hl hlive => by simp [session_for_url, h, hl, hlive]⟩

def userC5 : SyncUser :=
  { state := UserState.Active, server_url := "", is_admin := false,
    refresh_token := "tok", identity := "id",
    sessions := [("a", 1), ("b", 2)], waiting_sessions := [] }

theorem session_for_url_spec_witness :
    session_for_url (fun sid => decide (sid = 1)) "a" userC5 = (userC5, some 1) :=
  (session_for_url_spec (fun sid => decide (sid = 1)) "a" userC5).2.2.2 1
    (by decide) (by decide) (by decide)

/-- C10: when the state is not Error and the URL's active-map entry still
resolves, `session_for_url` returns the session even when the session is in a
fatal error state, and prunes nothing — whereas `all_sessions` with the same
liveness facts removes that entry and omits the session from its result. -/
theorem session_for_url_no_fatal_check (live inError : SessionId → Bool)
    (url : String) (u : SyncUser) (sid : SessionId)
    (hs : u.state ≠ UserState.Error)
    (hl : lookupKey url u.sessions = some sid)
    (hlive : live sid = true) :
    session_for_url live url u = (u, some sid) ∧
    (inError sid = true →
      (url, sid) ∉ ((all_sessions live inError u).1).sessions ∧
      sid ∉ (all_sessions live inError u).2) := by
  constructor
  · simp [session_for_url, hs, hl, hlive]
  · intro herr
    have hall : all_sessions live inError u =
        ({ u with sessions := u.sessions.filter (fun p => live p.2 && !inError p.2) },
          (u.sessions.filter (fun p => live p.2 && !inError p.2)).map (fun p => p.2)) := by
      simp [all_sessions, hs, pruneSessions_eq_filter]
    rw [hall]
    constructor
    · intro hmem
      have := (List.mem_filter.mp hmem).2
      simp [herr] at this
    · intro hmem
      obtain ⟨q, hq, hq2⟩ := List.mem_map.mp hmem
      have := (List.mem_filter.mp hq).2
      rw [hq2] at this
      simp [herr] at this

def userC10 : SyncUser :=
  { state := UserState.LoggedOut, server_url := "", is_admin := false,
    refresh_token := "tok", identity := "id",
    sessions := [("a", 1)], waiting_sessions := [] }

theorem session_for_url_no_fatal_check_witness :
    session_for_url (fun _ => true) "a" userC10 = (userC10, some 1) ∧
    ((("a", 1) : String × SessionId) ∉
        ((all_sessions (fun _ => true) (fun _ => true) userC10).1).sessions ∧
      1 ∉ (all_sessions (fun _ => true) (fun _ => true) userC10).2) :=
  ⟨(session_for_url_no_fatal_check (fun _ => true) (fun _ => true) "a" userC10 1
      (by decide) (by decide) (by decide)).1,
    (session_for_url_no_fatal_check (fun _ => true) (fun _ => true) "a" userC10 1
      (by decide) (by decide) (by decide)).2 (by decide)⟩

/-- C4: `register_session` for a URL that already has a live reference in
either the active or the waiting map fails with `std::invalid_argument` and
leaves the user (state, token, both maps) unchanged, in every state. -/
theorem register_session_duplicate_rejected (live : SessionId → Bool)
    (sid : SessionId) (url : String) (u : SyncUser)
    (h : hasLiveSession live url u.sessions = true ∨
      hasLiveSession live url u.waiting_sessions = true) :
    register_session live sid url u = (u, Except.error ()) := by
  rcases h with h | h <;> simp [register_session, h]

def userC4 : SyncUser :=
  { state := UserState.LoggedOut, server_url := "", is_admin := false,
    refresh_token := "tok", identity := "id",
    sessions := [], waiting_sessions := [("a", 1)] }

theorem register_session_duplicate_rejected_witness :
    register_session (fun _ => true) 2 "a" userC4 = (userC4, Except.error ()) :=
  register_session_duplicate_rejected (fun _ => true) 2 "a" userC4 (Or.inr (by decide))

/-- C6: `all_sessions()` returns an empty result with the user untouched in
the Error state; otherwise it keeps exactly the entries that resolve and are
not in a fatal error state (removing, in one pass, every entry that is
unresolvable or fatally errored) and returns exactly the kept sessions. -/
theorem all_sessions_spec (live inError : SessionId → Bool) (u : SyncUser) :
    (u.state = UserState.Error → all_sessions live inError u = (u, [])) ∧
    (u.state ≠ UserState.Error →
      all_sessions live inError u =
        ({ u with sessions := u.sessions.filter (fun p => live p.2 && !inError p.2) },
          (u.sessions.filter (fun p => live p.2 && !inError p.2)).map (fun p => p.2))) := by
  constructor
  · intro h
    simp [all_sessions, h]
  · intro h
    simp [all_sessions, h, pruneSessions_eq_filter]

def userC6 : SyncUser :=
  { state := UserState.Active, server_url := "", is_admin := false,
    refresh_token := "tok", identity := "id",
    sessions := [("a", 1), ("b", 2), ("c", 3)], waiting_sessions := [] }

theorem all_sessions_spec_witness :
    all_sessions (fun sid => decide (sid ≠ 2)) (fun sid => decide (sid = 3)) userC6 =
      ({ userC6 with sessions := [("a", 1)] }, [1]) := by
  rw [(all_sessions_spec (fun sid => decide (sid ≠ 2)) (fun sid => decide (sid = 3))
    userC6).2 (by decide)]
  decide

/-- C8: `log_out()` is a no-op for an admin user and for a user already
LoggedOut — no state change, no notifications, no session moved — and a
second consecutive `log_out()` is always a no-op. -/
theorem log_out_noop_spec (live : SessionId → Bool) (u : SyncUser) :
    (u.is_admin = true → log_out live u = (u, [])) ∧
    (u.state = UserState.LoggedOut → log_out live u = (u, [])) ∧
    (∀ live', log_out live' (log_out live u).1 = ((log_out live u).1, [])) := by
  refine ⟨fun h => by simp [log_out, h], fun h => ?_, fun live' => ?_⟩
  · by_cases ha : u.is_admin = true <;> simp [log_out, ha, h]
  · by_cases ha : u.is_admin = true
    · simp [log_out, ha]
    · by_cases hs : u.state = UserState.LoggedOut
      · simp [log_out, ha, hs]
      · simp [log_out, ha, hs]

def userC8 : SyncUser :=
  { state := UserState.Active, server_url := "", is_admin := false,
    refresh_token := "tok", identity := "id",
    sessions := [("a", 1)], waiting_sessions := [] }

theorem log_out_noop_spec_witness :
    log_out (fun _ => true) { userC8 with is_admin := true } =
      ({ userC8 with is_admin := true }, []) ∧
    log_out (fun _ => true) { userC8 with state := UserState.LoggedOut } =
      ({ userC8 with state := UserState.LoggedOut }, []) ∧
    log_out (fun _ => true) (log_out (fun _ => true) userC8).1 =
      ((log_out (fun _ => true) userC8).1, []) :=
  ⟨(log_out_noop_spec (fun _ => true) { userC8 with is_admin := true }).1 rfl,
    (log_out_noop_spec (fun _ => true) { userC8 with state := UserState.LoggedOut }).2.1 rfl,
    (log_out_noop_spec (fun _ => true) userC8).2.2 (fun _ => true)⟩

/-- C1 counterexample: the claim "once the state is Error it never changes
again" is false for non-admin users.  `log_out()` only early-returns on the
LoggedOut state, so calling it on an invalidated (Error) non-admin user moves
the state to LoggedOut. -/
theorem invalidate_error_not_permanent_cex :
    (log_out (fun _ => true) (invalidate
      { state := UserState.Active, server_url := "", is_admin := false,
        refresh_token := "tok", identity := "id",
        sessions := [], waiting_sessions := [] })).1.state = UserState.LoggedOut ∧
    (log_out (fun _ => true) (invalidate
      { state := UserState.Active, server_url := "", is_admin := false,
        refresh_token := "tok", identity := "id",
        sessions := [], waiting_sessions := [] })).1.state ≠ UserState.Error := by
  constructor
  · rfl
  · decide

/-- C1 amended: after `invalidate()` the state is Error, and it stays Error
under `update_refresh_token` (which also revives nothing) and under a further
`invalidate`; `log_out` keeps an admin user unchanged, but moves a non-admin
user from Error to LoggedOut. -/
theorem invalidate_error_persistence (live : SessionId → Bool) (t : String) (u : SyncUser) :
    (invalidate u).state = UserState.Error ∧
    update_refresh_token live t (invalidate u) = (invalidate u, []) ∧
    invalidate (invalidate u) = invalidate u ∧
    (u.is_admin = true → log_out live (invalidate u) = (invalidate u, [])) ∧
    (u.is_admin = false → (log_out live (invalidate u)).1.state = UserState.LoggedOut) := by
  refine ⟨rfl, rfl, rfl, fun h => by simp [log_out, invalidate, h], fun h => ?_⟩
  simp [log_out, invalidate, h]

def userC1a : SyncUser :=
  { state := UserState.Active, server_url := "", is_admin := true,
    refresh_token := "tok", identity := "id",
    sessions := [], waiting_sessions := [] }

def userC1b : SyncUser :=
  { state := UserState.Active, server_url := "", is_admin := false,
    refresh_token := "tok", identity := "id",
    sessions := [], waiting_sessions := [] }

theorem invalidate_error_persistence_witness :
    log_out (fun _ => true) (invalidate userC1a) = (invalidate userC1a, []) ∧
    (log_out (fun _ => true) (invalidate userC1b)).1.state = UserState.LoggedOut :=
  ⟨(invalidate_error_persistence (fun _ => true) "t" userC1a).2.2.2.1 rfl,
    (invalidate_error_persistence (fun _ => true) "t" userC1b).2.2.2.2 rfl⟩

/-- C2: on a LoggedOut user, `update_refresh_token(t)` replaces the token
with `t`, sets the state to Active, moves exactly the waiting-map entries
whose reference still resolves into the active map, hands each resolved
session to revival exactly once, discards (neither moves nor revives) every
unresolvable entry, and empties the waiting map.  The uniqueness hypotheses
are the map invariants: a `std::map` has unique keys, and distinct entries
hold distinct sessions (each session is registered under its own URL). -/
theorem update_refresh_token_loggedOut_spec (live : SessionId → Bool) (t : String)
    (u : SyncUser)
    (hs : u.state = UserState.LoggedOut)
    (hkeys : (u.waiting_sessions.map Prod.fst).Nodup)
    (hsids : (u.waiting_sessions.map Prod.snd).Nodup) :
    (update_refresh_token live t u).1.refresh_token = t ∧
    (update_refresh_token live t u).1.state = UserState.Active ∧
    (update_refresh_token live t u).1.waiting_sessions = [] ∧
    (update_refresh_token live t u).2 =
      (u.waiting_sessions.filter (fun p => live p.2)).map (fun p => p.2) ∧
    (∀ p ∈ u.waiting_sessions, live p.2 = true →
      lookupKey p.1 (update_refresh_token live t u).1.sessions = some p.2 ∧
      ((update_refresh_token live t u).2).count p.2 = 1) ∧
    (∀ p ∈ u.waiting_sessions, live p.2 = false →
      p.2 ∉ (update_refresh_token live t u).2 ∧
      lookupKey p.1 (update_refresh_token live t u).1.sessions = lookupKey p.1 u.sessions) ∧
    (∀ url, url ∉ u.waiting_sessions.map Prod.fst →
      lookupKey url (update_refresh_token live t u).1.sessions = lookupKey url u.sessions) := by
  have hu : update_refresh_token live t u =
      ({ u with
          refresh_token := t,
          state := UserState.Active,
          sessions := (u.waiting_sessions.filter (fun p => live p.2)).foldl
            (fun m p => setKey p.1 p.2 m) u.sessions,
          waiting_sessions := [] },
        (u.waiting_sessions.filter (fun p => live p.2)).map (fun p => p.2)) := by
    simp [update_refresh_token, hs]
  have hsubW : List.Sublist (u.waiting_sessions.filter (fun p => live p.2))
      u.waiting_sessions :=
    List.filter_sublist _
  have hkeysW : ((u.waiting_sessions.filter (fun p => live p.2)).map Prod.fst).Nodup :=
    List.Nodup.sublist (hsubW.map Prod.fst) hkeys
  have hsidsW : ((u.waiting_sessions.filter (fun p => live p.2)).map Prod.snd).Nodup :=
    List.Nodup.sublist (hsubW.map Prod.snd) hsids
  rw [hu]
  refine ⟨rfl, rfl, rfl, rfl, ?_, ?_, ?_⟩
  · intro p hp hlive
    have hpW : p ∈ u.waiting_sessions.filter (fun p => live p.2) :=
      List.mem_filter.mpr ⟨hp, by simp [hlive]⟩
    refine ⟨lookupKey_foldl_setKey_mem _ _ hkeysW p hpW, ?_⟩
    have hmem : p.2 ∈ (u.waiting_sessions.filter (fun p => live p.2)).map (fun p => p.2) :=
      List.mem_map_of_mem _ hpW
    simpa using List.count_eq_one_of_mem hsidsW hmem
  · intro p hp hdead
    constructor
    · intro hmem
      obtain ⟨q, hq, hq2⟩ := List.mem_map.mp hmem
      have hqlive := (List.mem_filter.mp hq).2
      rw [hq2] at hqlive
      simp [hdead] at hqlive
    · refine lookupKey_foldl_setKey_notmem _ _ _ ?_
      intro hmem
      obtain ⟨q, hq, hq1⟩ := List.mem_map.mp hmem
      have hqW := List.mem_filter.mp hq
      have : q = p := key_eq_of_nodup_keys hkeys hqW.1 hp hq1
      rw [this] at hqW
      simp [hdead] at hqW
  · intro url hurl
    refine lookupKey_foldl_setKey_notmem _ _ _ ?_
    intro hmem
    exact hurl ((hsubW.map Prod.fst).subset hmem)

def userC2 : SyncUser :=
  { state := UserState.LoggedOut, server_url := "", is_admin := false,
    refresh_token := "old", identity := "id",
    sessions := [], waiting_sessions := [("a", 1), ("b", 2)] }

theorem update_refresh_token_loggedOut_spec_witness :
    (update_refresh_token (fun sid => decide (sid = 1)) "new" userC2).1.state =
      UserState.Active ∧
    lookupKey "a"
      (update_refresh_token (fun sid => decide (sid = 1)) "new" userC2).1.sessions =
      some 1 ∧
    (2 : SessionId) ∉ (update_refresh_token (fun sid => decide (sid = 1)) "new" userC2).2 :=
  ⟨(update_refresh_token_loggedOut_spec (fun sid => decide (sid = 1)) "new" userC2
      (by decide) (by decide) (by decide)).2.1,
    ((update_refresh_token_loggedOut_spec (fun sid => decide (sid = 1)) "new" userC2
      (by decide) (by decide) (by decide)).2.2.2.2.1 ("a", 1) (by decide) (by decide)).1,
    ((update_refresh_token_loggedOut_spec (fun sid => decide (sid = 1)) "new" userC2
      (by decide) (by decide) (by decide)).2.2.2.2.2.1 ("b", 2) (by decide) (by decide)).1⟩

/-- C3: `log_out()` on a non-admin Active user sets the state to LoggedOut,
sends each live active session exactly one logout notification, moves each of
them into the waiting map, clears the active map, and makes a subsequent
`all_sessions()` empty.  The uniqueness hypotheses are the map invariants
(unique `std::map` keys; distinct sessions in distinct entries). -/
theorem log_out_active_spec (live : SessionId → Bool) (u : SyncUser)
    (ha : u.is_admin = false) (hs : u.state = UserState.Active)
    (hkeys : (u.sessions.map Prod.fst).Nodup)
    (hsids : (u.sessions.map Prod.snd).Nodup) :
    (log_out live u).1.state = UserState.LoggedOut ∧
    (log_out live u).1.sessions = [] ∧
    (log_out live u).2 = (u.sessions.filter (fun p => live p.2)).map (fun p => p.2) ∧
    (∀ p ∈ u.sessions, live p.2 = true →
      ((log_out live u).2).count p.2 = 1 ∧
      lookupKey p.1 (log_out live u).1.waiting_sessions = some p.2) ∧
    (∀ live' inError', (all_sessions live' inError' (log_out live u).1).2 = []) := by
  have hu : log_out live u =
      ({ u with
          state := UserState.LoggedOut,
          sessions := [],
          waiting_sessions := (u.sessions.filter (fun p => live p.2)).foldl
            (fun m p => setKey p.1 p.2 m) u.waiting_sessions },
        (u.sessions.filter (fun p => live p.2)).map (fun p => p.2)) := by
    simp [log_out, ha, hs]
  have hsubA : List.Sublist (u.sessions.filter (fun p => live p.2)) u.sessions :=
    List.filter_sublist _
  have hkeysA : ((u.sessions.filter (fun p => live p.2)).map Prod.fst).Nodup :=
    List.Nodup.sublist (hsubA.map Prod.fst) hkeys
  have hsidsA : ((u.sessions.filter (fun p => live p.2)).map Prod.snd).Nodup :=
    List.Nodup.sublist (hsubA.map Prod.snd) hsids
  rw [hu]
  refine ⟨rfl, rfl, rfl, ?_, ?_⟩
  · intro p hp hlive
    have hpA : p ∈ u.sessions.filter (fun p => live p.2) :=
      List.mem_filter.mpr ⟨hp, by simp [hlive]⟩
    constructor
    · have hmem : p.2 ∈ (u.sessions.filter (fun p => live p.2)).map (fun p => p.2) :=
        List.mem_map_of_mem _ hpA
      simpa using List.count_eq_one_of_mem hsidsA hmem
    · exact lookupKey_foldl_setKey_mem _ _ hkeysA p hpA
  · intro live' inError'
    simp [all_sessions, pruneSessions]

def userC3 : SyncUser :=
  { state := UserState.Active, server_url := "", is_admin := false,
    refresh_token := "tok", identity := "id",
    sessions := [("a", 1), ("b", 2)], waiting_sessions := [] }

theorem log_out_active_spec_witness :
    (log_out (fun sid => decide (sid = 1)) userC3).1.state = UserState.LoggedOut ∧
    ((log_out (fun sid => decide (sid = 1)) userC3).2).count 1 = 1 ∧
    lookupKey "a" (log_out (fun sid => decide (sid = 1)) userC3).1.waiting_sessions =
      some 1 ∧
    (all_sessions (fun _ => true) (fun _ => false)
      (log_out (fun sid => decide (sid = 1)) userC3).1).2 = [] :=
  ⟨(log_out_active_spec (fun sid => decide (sid = 1)) userC3
      (by decide) (by decide) (by decide) (by decide)).1,
    ((log_out_active_spec (fun sid => decide (sid = 1)) userC3
      (by decide) (by decide) (by decide) (by decide)).2.2.2.1 ("a", 1)
        (by decide) (by decide)).1,
    ((log_out_active_spec (fun sid => decide (sid = 1)) userC3
      (by decide) (by decide) (by decide) (by decide)).2.2.2.1 ("a", 1)
        (by decide) (by decide)).2,
    (log_out_active_spec (fun sid => decide (sid = 1)) userC3
      (by decide) (by decide) (by decide) (by decide)).2.2.2.2
        (fun _ => true) (fun _ => false)⟩

/-- Stepping over a block of session-logout notifications while the lock is
still held does not affect `callsBefore`. -/
theorem callsBefore_logOut_block (p : Event → Bool) (l : List (String × SessionId))
    (rest : List Event) :
    callsBefore p ((l.map (fun q => Event.sessionLogOut q.2)) ++ rest) false =
      callsBefore p rest false := by
  induction l with
  | nil => rfl
  | cons q tl ih => simp [callsBefore, ih]

/-- C9 counterexample: the claim that the admin bind is the only external
session call performed under the lock is false.  On an Active non-admin user
with one live session, `log_out()` performs the session's `log_out()`
notification between lock acquisition and release. -/
theorem lock_discipline_cex :
    sessionCallsAfterRelease (log_out_trace (fun _ => true)
      { state := UserState.Active, server_url := "", is_admin := false,
        refresh_token := "tok", identity := "id",
        sessions := [("a", 1)], waiting_sessions := [] }) = false := by
  decide

/-- C9 amended: `update_refresh_token` performs every external session call
(its revival calls) only after releasing the lock, and `register_session`'s
non-admin revival call also runs only after release; but revival calls are
the only session calls made outside the lock: the admin bind in
`register_session` **and** the per-session logout notifications in
`log_out()` both run while the lock is held. -/
theorem lock_discipline_amended (live : SessionId → Bool)
    (sid : SessionId) (url : String) (u : SyncUser) :
    sessionCallsAfterRelease (update_refresh_token_trace live u) = true ∧
    reviveCallsAfterRelease (register_session_trace live sid url u) = true ∧
    reviveCallsAfterRelease (log_out_trace live u) = true ∧
    callsBefore (fun e => !isReviveCall e && isSessionCall e)
      (log_out_trace live u) false = true ∧
    callsBefore (fun e => !isReviveCall e && isSessionCall e)
      (register_session_trace live sid url u) false = true := by
  refine ⟨?_, ?_, ?_, ?_, ?_⟩
  · cases hs : u.state with
    | Error =>
      simp [update_refresh_token_trace, hs, sessionCallsAfterRelease, callsAfter,
        isSessionCall]
    | Active =>
      by_cases ha : u.is_admin = true <;>
        simp [update_refresh_token_trace, hs, ha, sessionCallsAfterRelease, callsAfter,
          isSessionCall]
    | LoggedOut =>
      by_cases ha : u.is_admin = true <;>
        simp [update_refresh_token_trace, hs, ha, sessionCallsAfterRelease, callsAfter,
          isSessionCall, callsAfter_of_released]
  · by_cases hd : (hasLiveSession live url u.sessions ||
        hasLiveSession live url u.waiting_sessions) = true
    · simp [register_session_trace, hd, reviveCallsAfterRelease, callsAfter, isReviveCall]
    · cases hs : u.state with
      | Active =>
        by_cases ha : u.is_admin = true <;>
          simp [register_session_trace, hd, hs, ha, reviveCallsAfterRelease, callsAfter,
            isReviveCall]
      | LoggedOut =>
        simp [register_session_trace, hd, hs, reviveCallsAfterRelease, callsAfter,
          isReviveCall]
      | Error =>
        simp [register_session_trace, hd, hs, reviveCallsAfterRelease, callsAfter,
          isReviveCall]
  · by_cases ha : u.is_admin = true
    · simp [log_out_trace, ha, reviveCallsAfterRelease, callsAfter, isReviveCall]
    · by_cases hs : u.state = UserState.LoggedOut
      · simp [log_out_trace, ha, hs, reviveCallsAfterRelease, callsAfter, isReviveCall]
      · unfold reviveCallsAfterRelease
        apply callsAfter_of_not
        intro e he
        cases e <;>
          first
          | rfl
          | (exfalso; simp [log_out_trace, ha, hs, List.mem_append, List.mem_map] at he)
  · by_cases ha : u.is_admin = true
    · simp [log_out_trace, ha, callsBefore]
    · by_cases hs : u.state = UserState.LoggedOut
      · simp [log_out_trace, ha, hs, callsBefore, isSessionCall, isReviveCall]
      · simp [log_out_trace, ha, hs, callsBefore, callsBefore_logOut_block,
          isSessionCall, isReviveCall]
  · by_cases hd : (hasLiveSession live url u.sessions ||
        hasLiveSession live url u.waiting_sessions) = true
    · simp [register_session_trace, hd, callsBefore, isSessionCall, isReviveCall]
    · cases hs : u.state with
      | Active =>
        by_cases ha : u.is_admin = true <;>
          simp [register_session_trace, hd, hs, ha, callsBefore, isSessionCall, isReviveCall]
      | LoggedOut =>
        simp [register_session_trace, hd, hs, callsBefore, isSessionCall, isReviveCall]
      | Error =>
        simp [register_session_trace, hd, hs, callsBefore, isSessionCall, isReviveCall]
